import Mathlib

/-!
# Verification of the deepqmc sampling / training core

A shallow embedding, in Lean 4, of the parts of `src/deepqmc/jax/train.py`
and `src/deepqmc/sampling.py` that the verified properties are about:

* `CheckpointStore` (loss-gated, bounded checkpoint persistence),
* the NaN-rollback training loop of `train`,
* the sampler chain composition (`chain`, `DecorrSampler`, `ResampledSampler`),
* `clean_force` / `crossover_parameter` numerical force stabilisation,
* `MoleculeIdxSampler` geometry-index batching.

Python machine floats are modelled by `ℚ`/`ℝ`; Python exceptions by
`Except`/`Option` results; the training state, the external `fit_wf`
collaborator, the wave function, and the PRNG are abstract parameters.
-/

set_option autoImplicit false

namespace DeepQMC

/-! ## CheckpointStore (`src/deepqmc/jax/train.py`)

`Checkpoint = namedtuple('Checkpoint', 'step loss path')`.  The pickle file
behind `path` is modelled by carrying its content (`state`) in the record;
the set of files currently existing in `workdir` is modelled by the `files`
field of the store, a list of `(step-in-filename, content)` pairs. -/

structure Checkpoint (σ : Type) where
  step : Nat
  loss : ℚ
  state : σ
  deriving DecidableEq, Repr

structure CheckpointStore (σ : Type) where
  size : Nat
  min_interval : Nat
  threshold : ℚ
  chkpts : List (Checkpoint σ)
  step : Nat
  buffer : Option σ
  files : List (Nat × σ)
  deriving DecidableEq, Repr

namespace CheckpointStore

variable {σ : Type}

/-- `CheckpointStore.__init__`: deletes all files matching the pattern and
starts with an empty checkpoint list, step counter 0 and empty buffer. -/
def new (size : Nat := 3) (min_interval : Nat := 100)
    (threshold : ℚ := 95 / 100) : CheckpointStore σ :=
  ⟨size, min_interval, threshold, [], 0, none, []⟩

/-- `path.unlink()`: remove the file whose name embeds step `p`. -/
def unlinkFile (files : List (Nat × σ)) (p : Nat) : List (Nat × σ) :=
  files.filter fun f => f.1 ≠ p

/-- `while len(self.chkpts) > self.size: self.chkpts.pop(0).path.unlink()`. -/
def evictLoop (size : Nat) :
    List (Checkpoint σ) → List (Nat × σ) → List (Checkpoint σ) × List (Nat × σ)
  | [], files => ([], files)
  | c :: rest, files =>
    if size < (c :: rest).length then evictLoop size rest (unlinkFile files c.step)
    else (c :: rest, files)

/-- The early-return condition of `CheckpointStore.update` (which, when it
holds, skips persisting):
`self.step < self.min_interval or self.chkpts and
 (self.step < self.min_interval + self.chkpts[-1].step
  or loss > self.threshold * self.chkpts[-1].loss)`. -/
def skipsPersist (cs : CheckpointStore σ) (loss : ℚ) : Bool :=
  decide (cs.step < cs.min_interval) ||
    match cs.chkpts.getLast? with
    | none => false
    | some last =>
      decide (cs.step < cs.min_interval + last.step) ||
        decide (cs.threshold * last.loss < loss)

/-- `CheckpointStore.update(loss, state)`: bump the call counter, always buffer
a (deep copy of the) state, then either return early or dump the state to a new
file, append a `Checkpoint` and evict the oldest entries beyond `size`. -/
def update (cs₀ : CheckpointStore σ) (loss : ℚ) (state : σ) : CheckpointStore σ :=
  let cs := { cs₀ with step := cs₀.step + 1, buffer := some state }
  if skipsPersist cs loss then cs
  else
    let cs := { cs with
      files := cs.files ++ [(cs.step, state)],
      chkpts := cs.chkpts ++ [Checkpoint.mk cs.step loss state] }
    let ev := evictLoop cs.size cs.chkpts cs.files
    { cs with chkpts := ev.1, files := ev.2 }

/-- `CheckpointStore.close`: dump the buffered state, if any. -/
def close (cs : CheckpointStore σ) : CheckpointStore σ :=
  match cs.buffer with
  | none => cs
  | some st => { cs with files := cs.files ++ [(cs.step, st)] }

/-- `CheckpointStore.last`: `self.chkpts[-1]` and the unpickled file behind
its path.  `self.chkpts[-1]` raises `IndexError` on an empty list, modelled by
`none`. -/
def last (cs : CheckpointStore σ) : Option (Nat × σ) :=
  cs.chkpts.getLast?.map fun c => (c.step, c.state)

/-- A sequence of `update` calls, each a `(loss, state)` pair. -/
def runUpdates (cs : CheckpointStore σ) (calls : List (ℚ × σ)) : CheckpointStore σ :=
  calls.foldl (fun c p => c.update p.1 p.2) cs

end CheckpointStore

/-! ## The training loop of `train` (`src/deepqmc/jax/train.py`)

We model the part of `train` that starts at `log.info('Start training')`:

```
train_state = params, None, smpl_state
for _ in range(max_restarts):
    for step, train_state, E_loc, stats in fit_wf(..., pbar, ..., train_state, ...):
        if jnp.isnan(train_state.sampler['psi'].log).any():
            step, train_state = chkpts.last
            pbar = tqdm(range(step, steps), ...)
            break
        ...
        if workdir:
            if mode == 'train':
                chkpts.update(stats['E_loc/std'], train_state)
            ...
    return train_state
```

The training state `σ`, the external `fit_wf` step (`fit`), the NaN check on
`train_state.sampler['psi'].log` (`nan`) and the `stats['E_loc/std']` value
fed to the checkpoint store (`lossOf`) are abstract parameters.  `fit_wf`
drives the progress bar `pbar = range(start, steps)` in order, so one attempt
of the inner loop processes the step indices `List.range' start (steps - start)`.
`chkpts` is `some store` when `workdir` is given (training mode) and `none`
when `workdir is None`, in which case the local variable `chkpts` is never
bound and the recovery branch raises `NameError`.

Note the indentation of `return train_state`: it sits at the inner `for`'s
level, inside the body of `for _ in range(max_restarts)` and with no
`for`/`else`.  In Python it therefore executes when the inner loop ends,
whether the loop ran through all steps or was left by the NaN `break`: after a
rollback the function returns the reloaded state at once, the freshly built
progress bar is never consumed, and the outer restart loop never runs a
second iteration (its body ends in `return`).  Only `max_restarts = 0` makes
the outer loop body not run at all, in which case control falls off the end
of the function and Python returns `None`. -/

/-- Outcome of one run of the inner `fit_wf` loop. -/
inductive InnerResult (σ : Type) where
  /-- The loop ran through all steps: `return train_state` executes. -/
  | completed (chkpts : Option (CheckpointStore σ)) (state : σ)
  /-- NaN detected: `step, train_state = chkpts.last`, a new progress bar
  `range(step, steps)` is built, then `break` — after which the
  `return train_state` that follows the inner loop returns the reloaded
  state. -/
  | nanRestart (step : Nat) (state : σ) (chkpts : Option (CheckpointStore σ))
  /-- Unhandled `NameError` (`workdir=None`) or `IndexError` (empty
  checkpoint list) raised by the recovery branch. -/
  | exception
  deriving DecidableEq

/-- Final outcome of `train`'s restart loop. -/
inductive TrainOutcome (σ : Type) where
  /-- `return train_state`. -/
  | returned (state : σ)
  /-- The `for _ in range(max_restarts)` range is empty (every body iteration
  ends in `return`, so this takes `max_restarts = 0`): control falls off the
  end of the function body, which in Python returns `None`. -/
  | noneValue
  /-- An unhandled exception propagates out of the loop. -/
  | exception
  deriving DecidableEq

variable {σ : Type}

/-- One attempt of the inner `fit_wf` loop over the remaining step indices. -/
def trainInner (fit : Nat → σ → σ) (nan : σ → Bool) (lossOf : σ → ℚ) :
    Option (CheckpointStore σ) → σ → List Nat → InnerResult σ
  | chkpts, state, [] => .completed chkpts state
  | chkpts, state, i :: rest =>
    let st := fit i state
    if nan st then
      match chkpts with
      | none => .exception
      | some cs =>
        match cs.last with
        | none => .exception
        | some (cstep, cstate) => .nanRestart cstep cstate (some cs)
    else
      trainInner fit nan lossOf (chkpts.map fun cs => cs.update (lossOf st) st)
        st rest

/-- `for _ in range(max_restarts)`: when the range is non-empty, its body
runs one attempt of the inner loop and then executes `return train_state` —
also after a NaN `break`, where `train_state` has just been rebound to the
checkpointed state; so the body always returns on its first iteration and the
remaining restart budget is never consumed.  With `max_restarts = 0` the body
never runs and the function returns `None`. -/
def trainOuter (fit : Nat → σ → σ) (nan : σ → Bool) (lossOf : σ → ℚ)
    (steps : Nat) :
    Nat → Option (CheckpointStore σ) → Nat → σ → TrainOutcome σ
  | 0, _, _, _ => .noneValue
  | _ + 1, chkpts, start, state =>
    match trainInner fit nan lossOf chkpts state (List.range' start (steps - start)) with
    | .completed _ st => .returned st
    | .exception => .exception
    | .nanRestart _ cstate _ => .returned cstate

/-- The training phase of `train`: the first attempt starts at step 0 with the
post-equilibration training state. -/
def trainLoop (fit : Nat → σ → σ) (nan : σ → Bool) (lossOf : σ → ℚ)
    (steps max_restarts : Nat) (chkpts : Option (CheckpointStore σ))
    (init : σ) : TrainOutcome σ :=
  trainOuter fit nan lossOf steps max_restarts chkpts 0 init

/-! ## Sampler chaining (`src/deepqmc/sampling.py`)

`jax.random` keys are modelled by an abstract key tree: `split`-ting a key
yields fresh, pairwise distinct child keys.  `jax.random.split(rng, n)`
returns `n` keys; `jax.random.split(rng)` returns 2. -/

inductive Rng where
  | seed (n : Nat)
  | child (r : Rng) (i : Nat)
  deriving DecidableEq, Repr

/-- `jax.random.split(rng, n)`. -/
def Rng.split (r : Rng) (n : Nat) : List Rng :=
  (List.range n).map r.child

/-- Python exceptions that the sampler layer can raise. -/
inductive SamplerErr where
  /-- `Sampler.sample` (the base class): `raise NotImplementedError`. -/
  | notImplementedError
  /-- Out-of-domain indexing (`v[-1]` on an empty stacked array). -/
  | indexError
  /-- `assert` failure in a constructor. -/
  | assertionError
  deriving DecidableEq, Repr

/-- `lax.scan` over a carried state, where the body may raise: an exception
raised while tracing the body propagates out of the whole `sample` call. -/
def scanE {ε α τ : Type} (f : α → Rng → Except ε (α × τ)) :
    α → List Rng → Except ε (α × List τ)
  | s, [] => .ok (s, [])
  | s, k :: ks => do
    let r ← f s k
    let rec ← scanE f r.1 ks
    pure (rec.1, r.2 :: rec.2)

section Chain

variable {St Conf Stats : Type}

/-- One class appearing among the bases of the dynamic type built by `chain`.
A `DecorrSampler` contributes its `sample` override (which calls
`super().sample`); a terminal mover (`MetropolisSampler`/`LangevinSampler`)
contributes a `sample` that does not delegate further, modelled by the
function it computes.  The base class `Sampler`, at the end of every MRO,
raises `NotImplementedError`. -/
inductive SamplerCls (St Conf Stats : Type) where
  | decorr (length : Nat)
  | terminal (sample : Rng → St → St × Conf × Stats)

/-- `DecorrSampler.sample`: `lax.scan` the super class's `sample` over
`jax.random.split(rng, self.length)` keeping `(state, stats)` (`[::2]`), then
take the final entry of each stacked stats array (`{k: v[-1]}`) and recompute
the physical configuration from the final walker positions. -/
def decorrBody (superSample : Rng → St → Except SamplerErr (St × Conf × Stats))
    (physConf : St → Conf) (length : Nat) (rng : Rng) (st : St) :
    Except SamplerErr (St × Conf × Stats) := do
  let res ← scanE (fun s k => do
      let r ← superSample k s
      pure (r.1, r.2.2)) st (rng.split length)
  match res.2.getLast? with
  | some stats => pure (res.1, physConf res.1, stats)
  | none => .error .indexError

/-- Method resolution for `sample` on the dynamic type built by `chain`:
the first base defining `sample` wins, `super()` refers to the next base,
and the root `Sampler` class raises `NotImplementedError`. -/
def mroSample (physConf : St → Conf) :
    List (SamplerCls St Conf Stats) → Rng → St → Except SamplerErr (St × Conf × Stats)
  | [] => fun _ _ => .error .notImplementedError
  | .terminal f :: _ => fun rng st => .ok (f rng st)
  | .decorr length :: rest => decorrBody (mroSample physConf rest) physConf length

/-- The `__name__` of each sampler class. -/
def SamplerCls.clsName : SamplerCls St Conf Stats → String
  | .decorr _ => "DecorrSampler"
  | .terminal _ => "MetropolisSampler"

/-- The object built by `chain`: a fresh type whose bases are the classes of
the given samplers (in order) and whose instance dict is the union of their
instance dicts (carried inside each `SamplerCls` here). -/
structure Chained (St Conf Stats : Type) where
  name : String
  mro : List (SamplerCls St Conf Stats)

/-- `chain(*samplers)`: builds the combined dynamic type and copies each
sampler's instance dict onto the new object.  The source body contains no
validation and no `raise`; for wrapper/mover base lists the `type(...)` call
succeeds, so construction always returns normally (`.ok`), whatever the last
element is. -/
def chain (samplers : List (SamplerCls St Conf Stats)) :
    Except SamplerErr (Chained St Conf Stats) :=
  .ok ⟨samplers.foldl (fun n c => n.replace "Sampler" c.clsName) "Sampler", samplers⟩

/-- Calling `.sample` on the chained object resolves through the MRO. -/
def Chained.sample (c : Chained St Conf Stats) (physConf : St → Conf) :
    Rng → St → Except SamplerErr (St × Conf × Stats) :=
  mroSample physConf c.mro

/-- Reference run of the terminal mover: iterate its `sample` over a list of
keys, carrying the walker state. -/
def runMover (f : Rng → St → St × Conf × Stats) : St → List Rng → St
  | st, [] => st
  | st, k :: ks => runMover f (f k st).1 ks

/-- The per-call stats emitted by iterating the terminal mover. -/
def runMoverStats (f : Rng → St → St × Conf × Stats) : St → List Rng → List Stats
  | _, [] => []
  | st, k :: ks => (f k st).2.2 :: runMoverStats f (f k st).1 ks

/-- The per-call configurations emitted by iterating the terminal mover. -/
def runMoverConfs (f : Rng → St → St × Conf × Stats) : St → List Rng → List Conf
  | _, [] => []
  | st, k :: ks => (f k st).2.1 :: runMoverConfs f (f k st).1 ks

end Chain

/-! ## ResampledSampler (`src/deepqmc/sampling.py`) -/

/-- `ResampledSampler.__init__`: `assert period is not None or treshold is
not None`; a failing `assert` raises `AssertionError` at construction. -/
def ResampledSampler.init (period : Option Nat) (treshold : Option ℚ) :
    Except SamplerErr (Option Nat × Option ℚ) :=
  if period.isSome || treshold.isSome then .ok (period, treshold)
  else .error .assertionError

/-- The sampler-state dict of a chain whose terminal mover is a
`MetropolisSampler` (`WALKER_STATE = ['r', 'psi', 'age']`) wrapped by a
`ResampledSampler` (which adds `step` and `log_weight`); `tau` is the shared
proposal scale.  `n` is the walker batch size. -/
structure RWState (n : Nat) (Pos Psi : Type) where
  r : Fin n → Pos
  psi : Fin n → Psi
  age : Fin n → Nat
  tau : ℝ
  step : Nat
  log_weight : Fin n → ℝ

/-- `ResampledSampler.resample_walkers`: draw walker indices by
`multinomial_resampling(rng_re, jnp.exp(state['log_weight']))` (the
multinomial draw itself lives in the external `deepqmc.utils` and is an
abstract parameter here), gather every `WALKER_STATE` field at the drawn
indices, keep the auxiliary fields, and reset `step` to 0 and `log_weight`
to zeros. -/
noncomputable def ResampledSampler.resample_walkers {n : Nat} {Pos Psi : Type}
    (multinomial : Rng → (Fin n → ℝ) → (Fin n → Fin n))
    (rng_re : Rng) (state : RWState n Pos Psi) : RWState n Pos Psi :=
  let idx := multinomial rng_re fun i => Real.exp (state.log_weight i)
  { r := fun i => state.r (idx i)
    psi := fun i => state.psi (idx i)
    age := fun i => state.age (idx i)
    tau := state.tau
    step := 0
    log_weight := fun _ => 0 }

/-- `weight = jnp.exp(state['log_weight']); ess = sum(weight)**2 / sum(weight**2)`. -/
noncomputable def effectiveSampleSize {n : Nat} (log_weight : Fin n → ℝ) : ℝ :=
  (∑ i, Real.exp (log_weight i)) ^ 2 / ∑ i, Real.exp (log_weight i) ^ 2

/-- The condition of the `lax.cond` in `ResampledSampler.sample`:
`(self.period is not None and state['step'] >= self.period) |
 (self.treshold is not None and ess / len(weight) < self.treshold)`. -/
def resampleTrigger (n : Nat) (period : Option Nat) (treshold : Option ℝ)
    (step : Nat) (ess : ℝ) : Prop :=
  (match period with
   | some p => p ≤ step
   | none => False) ∨
  (match treshold with
   | some t => ess / n < t
   | none => False)

open scoped Classical in
/-- `ResampledSampler.sample`: split the key, run the chained super `sample`,
increment the step counter, compute the effective sample size, and resample
the walkers when the period and/or threshold trigger fires
(`lax.cond(trigger, self.resample_walkers, lambda rng, state: state, ...)`).
The super class's `sample` (the decorrelation/mover part of the chain), the
`multinomial_resampling` draw (`deepqmc.utils`) and the physical-configuration
constructor are abstract parameters. -/
noncomputable def ResampledSampler.sampleStep {n : Nat} {Pos Psi Conf Stats : Type}
    (period : Option Nat) (treshold : Option ℝ)
    (superSample : Rng → RWState n Pos Psi → RWState n Pos Psi × Conf × Stats)
    (multinomial : Rng → (Fin n → ℝ) → (Fin n → Fin n))
    (physConf : (Fin n → Pos) → Conf)
    (rng : Rng) (state : RWState n Pos Psi) :
    RWState n Pos Psi × Conf × (Stats × ℝ) :=
  let rng_re := rng.child 0
  let rng_smpl := rng.child 1
  let res := superSample rng_smpl state
  let st1 := res.1
  let st2 := { st1 with step := st1.step + 1 }
  let weight : Fin n → ℝ := fun i => Real.exp (st2.log_weight i)
  let ess : ℝ := (∑ i, weight i) ^ 2 / ∑ i, weight i ^ 2
  let st3 :=
    if resampleTrigger n period treshold st2.step ess then
      resample_walkers multinomial rng_re st2
    else st2
  (st3, physConf st3.r, (res.2.2, ess))

/-! ## Force stabilisation (`clean_force`, `crossover_parameter`)

Modelled per walker over the reals.  A 3-vector is an `ℝ × ℝ × ℝ`;
`diffs_to_nearest_nuc` (via the external `pairwise_diffs`) supplies the
difference vector `z` to the nearest nucleus together with the squared
distance `z2` (the last component of the 4-vector), and `charge` is the
nuclear charge at the nearest nucleus.  `eps = jnp.finfo(dtype).eps` is an
arbitrary positive constant `ε`; `jnp.clip(x, eps, None) = max x ε`. -/

def dot3 (u v : ℝ × ℝ × ℝ) : ℝ :=
  u.1 * v.1 + u.2.1 * v.2.1 + u.2.2 * v.2.2

def normSq3 (v : ℝ × ℝ × ℝ) : ℝ :=
  v.1 ^ 2 + v.2.1 ^ 2 + v.2.2 ^ 2

/-- `jnp.linalg.norm(v, axis=-1)`. -/
noncomputable def norm3 (v : ℝ × ℝ × ℝ) : ℝ :=
  Real.sqrt (normSq3 v)

def smul3 (c : ℝ) (v : ℝ × ℝ × ℝ) : ℝ × ℝ × ℝ :=
  (c * v.1, c * v.2.1, c * v.2.2)

/-- `crossover_parameter(z, f, charge)` for one walker.  `z / norm(z)` is not
epsilon-clipped in the source; at `z = 0` the float code produces non-finite
entries while `ℝ` follows Lean's `x / 0 = 0` convention — the verified bounds
below do not depend on this measure-zero configuration. -/
noncomputable def crossover_parameter (z : ℝ × ℝ × ℝ) (z2 : ℝ) (f : ℝ × ℝ × ℝ)
    (charge ε : ℝ) : ℝ :=
  let z_unit := smul3 (norm3 z)⁻¹ z
  let f_unit := smul3 (max (norm3 f) ε)⁻¹ f
  let Z2z2 := charge ^ 2 * z2
  (1 + dot3 f_unit z_unit) / 2 + Z2z2 / (10 * (4 + Z2z2))

/-- `clean_force(force, phys_conf, mol, tau=tau)` for one walker: soften the
force magnitude by `2 / (sqrt(1 + 2*a*|F|^2*tau) + 1)`, then clip the drift by
`min(1, sqrt(z2) / (tau * clip(|F|, eps, None)))`. -/
noncomputable def clean_force (force z : ℝ × ℝ × ℝ) (z2 charge tau ε : ℝ) :
    ℝ × ℝ × ℝ :=
  let a := crossover_parameter z z2 force charge ε
  let av2tau := a * normSq3 force * tau
  let factor := 2 / (Real.sqrt (1 + 2 * av2tau) + 1)
  let force := smul3 factor force
  let norm_factor := min 1 (Real.sqrt z2 / (tau * max (norm3 force) ε))
  smul3 norm_factor force

/-! ## MoleculeIdxSampler (`src/deepqmc/sampling.py`)

With `shuffle=False` the permutation is `jnp.arange(n_mols)` and is rebuilt
(identical) on wrap-around.  `jnp` integer indexing clamps out-of-range
indices, hence `permGet`. -/

/-- `self.permutation[i]` for `permutation = jnp.arange(n)` (clamped). -/
def permGet (n i : Nat) : Nat := min i (n - 1)

/-- `MoleculeIdxSampler.sample` (shuffle disabled): returns the emitted index
batch and the new `self.state`.  The final `replicate_on_devices` only copies
the concatenated batch onto each device and is dropped here. -/
def MoleculeIdxSampler.sampleIdx (n bs state : Nat) : List Nat × Nat :=
  let idx := List.range' state (min (state + bs) n - state)
  let value := idx.map (permGet n)
  let value :=
    if idx.length < bs then
      value ++ (List.range (bs - idx.length)).map (permGet n)
    else value
  (value, (state + bs) % n)

/-- `k` consecutive `sample()` calls starting from internal state `state`. -/
def MoleculeIdxSampler.run (n bs : Nat) : Nat → Nat → List (List Nat)
  | _, 0 => []
  | state, k + 1 =>
    (MoleculeIdxSampler.sampleIdx n bs state).1 ::
      MoleculeIdxSampler.run n bs (MoleculeIdxSampler.sampleIdx n bs state).2 k

/-! ## The persistence gate as the specification states it

Used for the refinement comparison against `CheckpointStore.update`. -/

/-- Modelled from the spec: "persists only if `step >= min_interval` AND (no
prior checkpoint OR (`step - last.step >= min_interval` AND
`loss <= threshold * last.loss`))", where `step` is the value of the store's
call counter during this `update` call. -/
def specPersistGate {σ : Type} (cs : CheckpointStore σ) (loss : ℚ) : Prop :=
  cs.min_interval ≤ cs.step + 1 ∧
    (cs.chkpts = [] ∨
      ∃ l, cs.chkpts.getLast? = some l ∧
        cs.min_interval ≤ (cs.step + 1) - l.step ∧
        loss ≤ cs.threshold * l.loss)

/-! # Theorems -/

/-! ## CheckpointStore lemmas -/

namespace CheckpointStore

variable {σ' : Type}

theorem evictLoop_fst (size : Nat) :
    ∀ (l : List (Checkpoint σ')) (files : List (Nat × σ')),
      (evictLoop size l files).1 = l.drop (l.length - size)
  | [], files => by simp [evictLoop]
  | c :: rest, files => by
    by_cases h : size < (c :: rest).length
    · rw [evictLoop, if_pos h, evictLoop_fst size rest]
      have hlen : (c :: rest).length - size = (rest.length - size) + 1 := by
        simp only [List.length_cons] at h ⊢
        omega
      rw [hlen]
      rfl
    · rw [evictLoop, if_neg h]
      have hlen : (c :: rest).length - size = 0 := by
        simp only [List.length_cons] at h ⊢
        omega
      rw [hlen, List.drop_zero]

theorem evictLoop_mem_files (size : Nat) :
    ∀ (l : List (Checkpoint σ')) (files : List (Nat × σ')) (x : Nat × σ'),
      x ∈ files → (∀ c ∈ l.take (l.length - size), c.step ≠ x.1) →
      x ∈ (evictLoop size l files).2
  | [], files, x, hx, _ => by simpa [evictLoop] using hx
  | c :: rest, files, x, hx, htake => by
    by_cases h : size < (c :: rest).length
    · rw [evictLoop, if_pos h]
      have hlen : (c :: rest).length - size = (rest.length - size) + 1 := by
        simp only [List.length_cons] at h ⊢
        omega
      rw [hlen] at htake
      have hc : c.step ≠ x.1 := htake c (by simp)
      refine evictLoop_mem_files size rest _ x ?_ ?_
      · simp only [unlinkFile, List.mem_filter, decide_eq_true_eq]
        exact ⟨hx, fun he => hc he.symm⟩
      · intro c' hc'
        exact htake c' (by simp [List.take_succ_cons, hc'])
    · rw [evictLoop, if_neg h]
      exact hx

theorem update_buffer (cs : CheckpointStore σ') (loss : ℚ) (st : σ') :
    (cs.update loss st).buffer = some st := by
  unfold update
  dsimp only
  split <;> rfl

theorem runUpdates_buffer :
    ∀ (calls : List (ℚ × σ')) (cs : CheckpointStore σ') (loss : ℚ) (st : σ'),
      calls.getLast? = some (loss, st) →
      (runUpdates cs calls).buffer = some st
  | [], _, _, _, h => by simp at h
  | [a], cs, loss, st, h => by
    simp only [List.getLast?_singleton, Option.some.injEq] at h
    subst h
    exact update_buffer cs loss st
  | a :: b :: rest, cs, loss, st, h => by
    have : (b :: rest).getLast? = some (loss, st) := h
    exact runUpdates_buffer (b :: rest) (cs.update a.1 a.2) loss st this

/-- The source's skip condition, on the store as it stands after the counter
bump, is exactly the negation of the spec's persistence gate (for stores whose
recorded steps do not exceed the call counter, an invariant of every
reachable store). -/
theorem skipsPersist_iff_not_gate (cs : CheckpointStore σ') (loss : ℚ) (st : σ')
    (hsteps : ∀ c ∈ cs.chkpts, c.step ≤ cs.step) :
    (skipsPersist { cs with step := cs.step + 1, buffer := some st } loss = false ↔
      specPersistGate cs loss) := by
  unfold skipsPersist specPersistGate
  cases hl : cs.chkpts.getLast? with
  | none =>
    have hnil : cs.chkpts = [] := List.getLast?_eq_none_iff.mp hl
    simp [hl, hnil, Nat.not_lt]
  | some l =>
    have hmem : l ∈ cs.chkpts := List.mem_of_mem_getLast? hl
    have hstep : l.step ≤ cs.step + 1 := Nat.le_succ_of_le (hsteps l hmem)
    have hnil : cs.chkpts ≠ [] := by
      intro h
      rw [h] at hmem
      exact absurd hmem (List.not_mem_nil l)
    simp only [hl, Bool.or_eq_false_iff, decide_eq_false_iff_not, Nat.not_lt,
      not_lt]
    constructor
    · rintro ⟨h1, h2, h3⟩
      exact ⟨h1, Or.inr ⟨l, rfl, (Nat.le_sub_iff_add_le hstep).mpr h2, h3⟩⟩
    · rintro ⟨h1, h2 | ⟨l', hl', h2, h3⟩⟩
      · exact absurd h2 hnil
      · obtain rfl : l = l' := by simpa using hl'
        exact ⟨h1, (Nat.le_sub_iff_add_le hstep).mp h2, h3⟩

end CheckpointStore

/-! ## C3, C9 -/

/-- C3: an `update(loss, state)` call persists a new checkpoint if and only if
its step counter satisfies `step >= min_interval` and either no checkpoint was
persisted before, or `step - last.step >= min_interval` and
`loss <= threshold * last.loss` both hold; an update that does not persist
leaves the checkpoint list and the files on disk unchanged and only refreshes
the crash-recovery buffer. -/
theorem C3_update_persists_iff_gate {σ : Type} (cs : CheckpointStore σ)
    (loss : ℚ) (state : σ)
    (hsteps : ∀ c ∈ cs.chkpts, c.step ≤ cs.step) (hsize : 0 < cs.size) :
    (specPersistGate cs loss →
      (cs.update loss state).chkpts.getLast? =
        some (Checkpoint.mk (cs.step + 1) loss state) ∧
      (cs.step + 1, state) ∈ (cs.update loss state).files) ∧
    (¬ specPersistGate cs loss →
      (cs.update loss state).chkpts = cs.chkpts ∧
      (cs.update loss state).files = cs.files) ∧
    (cs.update loss state).buffer = some state := by
  have hiff := CheckpointStore.skipsPersist_iff_not_gate cs loss state hsteps
  refine ⟨?_, ?_, CheckpointStore.update_buffer cs loss state⟩
  · intro hgate
    have hskip : CheckpointStore.skipsPersist
        { cs with step := cs.step + 1, buffer := some state } loss = false :=
      hiff.mpr hgate
    simp only [CheckpointStore.update, hskip, Bool.false_eq_true, if_false]
    constructor
    · rw [CheckpointStore.evictLoop_fst]
      have hle : (cs.chkpts ++ [Checkpoint.mk (cs.step + 1) loss state]).length -
          cs.size ≤ cs.chkpts.length := by
        simp only [List.length_append, List.length_singleton]
        omega
      rw [List.drop_append_of_le_length hle, List.getLast?_concat]
    · refine CheckpointStore.evictLoop_mem_files cs.size _ _ _ (by simp) ?_
      intro c hc
      have hle : (cs.chkpts ++ [Checkpoint.mk (cs.step + 1) loss state]).length -
          cs.size ≤ cs.chkpts.length := by
        simp only [List.length_append, List.length_singleton]
        omega
      rw [List.take_append_of_le_length hle] at hc
      have hmem : c ∈ cs.chkpts := List.mem_of_mem_take hc
      have := hsteps c hmem
      simp only [ne_eq]
      omega
  · intro hgate
    have hskip : CheckpointStore.skipsPersist
        { cs with step := cs.step + 1, buffer := some state } loss = true := by
      cases h : CheckpointStore.skipsPersist
          { cs with step := cs.step + 1, buffer := some state } loss with
      | false => exact absurd (hiff.mp h) hgate
      | true => rfl
    simp [CheckpointStore.update, hskip]

/-- C3 witness: a store at counter 0 with `min_interval = 1` persists on its
first update. -/
theorem C3_witness :
    (specPersistGate (⟨1, 1, 1, [], 0, none, []⟩ : CheckpointStore Nat) 5 →
      ((⟨1, 1, 1, [], 0, none, []⟩ : CheckpointStore Nat).update 5 42).chkpts.getLast? =
        some (Checkpoint.mk 1 5 42) ∧
      (1, 42) ∈ ((⟨1, 1, 1, [], 0, none, []⟩ : CheckpointStore Nat).update 5 42).files) ∧
    (¬ specPersistGate (⟨1, 1, 1, [], 0, none, []⟩ : CheckpointStore Nat) 5 →
      ((⟨1, 1, 1, [], 0, none, []⟩ : CheckpointStore Nat).update 5 42).chkpts =
        ([] : List (Checkpoint Nat)) ∧
      ((⟨1, 1, 1, [], 0, none, []⟩ : CheckpointStore Nat).update 5 42).files =
        ([] : List (Nat × Nat))) ∧
    ((⟨1, 1, 1, [], 0, none, []⟩ : CheckpointStore Nat).update 5 42).buffer = some 42 :=
  C3_update_persists_iff_gate ⟨1, 1, 1, [], 0, none, []⟩ 5 42
    (by simp) (by decide)

/-- C9: after at least one `update` call, `close()` persists the state passed
to the most recent `update` call (the buffered state), whether or not any
update satisfied the interval/threshold persistence gate. -/
theorem C9_close_persists_last_update {σ : Type} (cs₀ : CheckpointStore σ)
    (calls : List (ℚ × σ)) (loss : ℚ) (st : σ)
    (h : calls.getLast? = some (loss, st)) :
    ((CheckpointStore.runUpdates cs₀ calls).close).files.getLast? =
      some ((CheckpointStore.runUpdates cs₀ calls).step, st) := by
  have hb := CheckpointStore.runUpdates_buffer calls cs₀ loss st h
  unfold CheckpointStore.close
  rw [hb]
  exact List.getLast?_concat _

/-- C9 witness: one gate-failing update (`min_interval = 100`) followed by
`close()` still persists the updated state. -/
theorem C9_witness :
    ((CheckpointStore.runUpdates (CheckpointStore.new : CheckpointStore Nat)
        [(1, 7)]).close).files.getLast? =
      some ((CheckpointStore.runUpdates (CheckpointStore.new : CheckpointStore Nat)
        [(1, 7)]).step, 7) :=
  C9_close_persists_last_update CheckpointStore.new [(1, 7)] 1 7 rfl

/-! ## C1, C2, C10 -/

/-- C1 (supporting theorem for the code-bug record): whatever the value of
`max_restarts`, a run whose every fitted state has a non-finite log-amplitude
never surfaces any error: with a positive restart budget the first NaN makes
the loop body execute `return train_state` right after the rollback (the
`return` sits at the inner `for`'s indentation, so it also runs after the
`break`), returning the checkpointed state silently; with `max_restarts = 0`
control falls off the end of the function and Python returns `None`.  No
`NaNError` is raised on any path — none is even defined or imported in
`train.py` — contradicting the claim and the function's own docstring, and
the restart budget is never consumed. -/
theorem C1_nan_run_returns_silently {σ : Type}
    (fit : Nat → σ → σ) (nan : σ → Bool) (lossOf : σ → ℚ)
    (cs : CheckpointStore σ) (steps cstep : Nat) (cstate : σ)
    (hnan : ∀ i s, nan (fit i s) = true)
    (hlast : cs.last = some (cstep, cstate)) :
    (∀ (attempts start : Nat) (state : σ), start < steps →
      trainOuter fit nan lossOf steps (attempts + 1) (some cs) start state =
        .returned cstate) ∧
    (∀ (start : Nat) (state : σ),
      trainOuter fit nan lossOf steps 0 (some cs) start state = .noneValue) := by
  constructor
  · intro attempts start state h
    obtain ⟨m, hm⟩ : ∃ m, steps - start = m + 1 := ⟨steps - start - 1, by omega⟩
    rw [trainOuter, hm]
    show (match trainInner fit nan lossOf (some cs) state
        (start :: List.range' (start + 1) m) with
      | .completed _ st => TrainOutcome.returned st
      | .exception => TrainOutcome.exception
      | .nanRestart _ cstate' _ => TrainOutcome.returned cstate') =
      .returned cstate
    rw [trainInner]
    simp only [hnan, if_true, hlast]
  · intro start state
    rfl

/-- C1 witness: with `max_restarts = 3`, a ten-step schedule, an always-NaN
fit step and one stored checkpoint holding state 7, `train` returns the
rolled-back state 7 silently on the very first NaN. -/
theorem C1_witness :
    trainOuter (σ := Nat) (fun _ s => s) (fun _ => true) (fun _ => 0) 10 3
      (some ⟨3, 100, 95 / 100, [Checkpoint.mk 2 5 7], 4, none, [(2, 7)]⟩) 0 0 =
      .returned 7 :=
  (C1_nan_run_returns_silently (fun _ s => s) (fun _ => true) (fun _ => 0)
    ⟨3, 100, 95 / 100, [Checkpoint.mk 2 5 7], 4, none, [(2, 7)]⟩ 10 2 7
    (fun _ _ => rfl) rfl).1 2 0 0 (by decide)

/-- C2 (supporting theorem for the code-bug record): when the wave-function
log-amplitude is non-finite at training step `k`, the freshly fitted
in-memory state is discarded and the state and step recorded in the most
recently persisted checkpoint are reloaded (`step, train_state = chkpts.last`),
and the rebuilt progress bar `range(step, steps)` indeed starts at the
checkpoint's recorded step — but the loop body then immediately executes
`return train_state` (it follows the inner loop at its indentation level, so
it also runs after the NaN `break`): the rebuilt progress bar is never
consumed and no next training step is executed at all; training terminates
with the rolled-back state instead of resuming from the checkpoint's step. -/
theorem C2_nan_rollback_then_immediate_return {σ : Type}
    (fit : Nat → σ → σ) (nan : σ → Bool) (lossOf : σ → ℚ)
    (cs : CheckpointStore σ) (s cstate : σ) (k cstep steps : Nat)
    (rest : List Nat)
    (hnan : nan (fit k s) = true)
    (hlast : cs.last = some (cstep, cstate)) :
    trainInner fit nan lossOf (some cs) s (k :: rest) =
        .nanRestart cstep cstate (some cs) ∧
    (cstep < steps → (List.range' cstep (steps - cstep)).head? = some cstep) ∧
    (∀ (attempts start : Nat) (state : σ),
        trainInner fit nan lossOf (some cs) state
            (List.range' start (steps - start)) =
          .nanRestart cstep cstate (some cs) →
        trainOuter fit nan lossOf steps (attempts + 1) (some cs) start state =
          .returned cstate) := by
  refine ⟨?_, ?_, ?_⟩
  · rw [trainInner]
    simp only [hnan, if_true, hlast]
  · intro h
    obtain ⟨m, hm⟩ : ∃ m, steps - cstep = m + 1 := ⟨steps - cstep - 1, by omega⟩
    rw [hm]
    rfl
  · intro attempts start state h
    rw [trainOuter, h]

/-- C2 witness: a NaN at step 9 with the last checkpoint recorded at step 2
discards the fitted state and reloads the checkpointed state 7 and step 2. -/
theorem C2_witness :
    trainInner (σ := Nat) (fun _ s => s) (fun _ => true) (fun _ => 0)
      (some ⟨3, 100, 95 / 100, [Checkpoint.mk 2 5 7], 4, none, [(2, 7)]⟩) 0 [9] =
      .nanRestart 2 7
        (some ⟨3, 100, 95 / 100, [Checkpoint.mk 2 5 7], 4, none, [(2, 7)]⟩) :=
  (C2_nan_rollback_then_immediate_return (fun _ s => s) (fun _ => true)
    (fun _ => 0)
    ⟨3, 100, 95 / 100, [Checkpoint.mk 2 5 7], 4, none, [(2, 7)]⟩ 0 7 9 2 10 []
    rfl rfl).1

/-- C10: the NaN-recovery branch presupposes a store with at least one
persisted checkpoint: with `workdir=None` the local `chkpts` is unbound
(`NameError`), and with an empty checkpoint list `chkpts[-1]` fails
(`IndexError`); either way the recovery branch raises instead of rolling
back. -/
theorem C10_recovery_needs_persisted_checkpoint {σ : Type}
    (fit : Nat → σ → σ) (nan : σ → Bool) (lossOf : σ → ℚ)
    (k : Nat) (rest : List Nat) (s : σ) (cs : CheckpointStore σ)
    (hnan : nan (fit k s) = true) (hempty : cs.chkpts = []) :
    trainInner fit nan lossOf none s (k :: rest) = .exception ∧
    trainInner fit nan lossOf (some cs) s (k :: rest) = .exception := by
  constructor
  · rw [trainInner]
    simp only [hnan, if_true]
  · rw [trainInner]
    simp only [hnan, if_true, CheckpointStore.last, hempty, List.getLast?_nil]
    rfl

/-- C10 witness: a NaN on the first step with `workdir=None`, and with a fresh
store that has not yet persisted anything, ends in an unhandled exception. -/
theorem C10_witness :
    trainInner (σ := Nat) (fun _ s => s) (fun _ => true) (fun _ => 0)
      none 0 [5] = .exception ∧
    trainInner (σ := Nat) (fun _ s => s) (fun _ => true) (fun _ => 0)
      (some CheckpointStore.new) 0 [5] = .exception :=
  C10_recovery_needs_persisted_checkpoint _ _ _ 5 [] 0 CheckpointStore.new
    rfl rfl

/-! ## Chain composition lemmas -/

section ChainLemmas

variable {St Conf Stats : Type}

theorem scanE_error_head {ε α τ : Type} (e : ε) (f : α → Rng → Except ε (α × τ))
    (s : α) (k : Rng) (ks : List Rng) (h : f s k = .error e) :
    scanE f s (k :: ks) = .error e := by
  rw [scanE, h]
  rfl

/-- A chain whose only element is a `DecorrSampler` wrapper: its `sample`
reaches the root `Sampler.sample` on the first decorrelating step and raises
`NotImplementedError`. -/
theorem mroSample_decorr_only (physConf : St → Conf) (l : Nat) (hl : 0 < l)
    (rng : Rng) (st : St) :
    mroSample physConf ([SamplerCls.decorr l] : List (SamplerCls St Conf Stats)) rng st =
      .error .notImplementedError := by
  obtain ⟨m, rfl⟩ : ∃ m, l = m + 1 := ⟨l - 1, by omega⟩
  rw [mroSample, decorrBody]
  have hsplit : rng.split (m + 1) = rng.child 0 :: (List.range m).map
      (fun i => rng.child (i + 1)) := by
    rw [Rng.split, List.range_succ_eq_map]
    simp [Function.comp]
  rw [hsplit, scanE_error_head .notImplementedError _ _ _ _ rfl]
  rfl

/-- `lax.scan` of the terminal mover's `sample` (lifted into the chained
`super().sample`) is the straight iteration of the mover. -/
theorem scanE_terminal (f : Rng → St → St × Conf × Stats) (physConf : St → Conf) :
    ∀ (ks : List Rng) (st : St),
      scanE (fun s k => do
          let r ← mroSample physConf [SamplerCls.terminal f] k s
          pure (r.1, r.2.2)) st ks =
        .ok (runMover f st ks, runMoverStats f st ks)
  | [], st => rfl
  | k :: ks, st => by
    have step1 : scanE (fun s k => do
          let r ← mroSample physConf [SamplerCls.terminal f] k s
          pure (r.1, r.2.2)) st (k :: ks) =
        Bind.bind (scanE (fun s k => do
            let r ← mroSample physConf [SamplerCls.terminal f] k s
            pure (r.1, r.2.2)) (f k st).1 ks)
          (fun rec => pure (rec.1, (f k st).2.2 :: rec.2)) := rfl
    rw [step1, scanE_terminal f physConf ks (f k st).1]
    rfl

theorem runMoverConfs_getLast {St Conf Stats : Type}
    (f : Rng → St → St × Conf × Stats) (physConf : St → Conf)
    (hconf : ∀ r s, (f r s).2.1 = physConf (f r s).1) :
    ∀ (ks : List Rng) (st : St), ks ≠ [] →
      (runMoverConfs f st ks).getLast? = some (physConf (runMover f st ks))
  | [], _, h => absurd rfl h
  | [k], st, _ => by simp [runMoverConfs, runMover, hconf]
  | k :: k' :: ks, st, _ =>
    runMoverConfs_getLast f physConf hconf (k' :: ks) (f k st).1 (by simp)

end ChainLemmas

/-! ## C4, C6 -/

/-- C4 counterexample: `chain(DecorrSampler(3))` has a non-terminating
wrapper as its last element, yet the `chain(...)` call itself returns a
composed sampler normally (the source contains no validation and no raise);
the failure surfaces only at the first `sample` call, as the root
`Sampler.sample`'s `NotImplementedError`.  This refutes "raises or clearly
errors at the `chain(...)` call itself". -/
theorem C4_counterexample :
    ∃ c, chain ([SamplerCls.decorr 3] : List (SamplerCls Unit Unit Unit)) =
        .ok c ∧
      c.sample (fun _ => ()) (Rng.seed 0) () = .error .notImplementedError :=
  ⟨_, rfl, mroSample_decorr_only (fun _ => ()) 3 (by decide) (Rng.seed 0) ()⟩

/-- C4 (amended): constructing a `ResampledSampler` with neither `period` nor
`treshold` set raises `AssertionError` immediately, and succeeds whenever one
of them is set; but `chain` with a non-terminating wrapper as the last element
does not error at the `chain(...)` call — it returns a composed sampler whose
first `sample` call raises `NotImplementedError`. -/
theorem C4_resampled_asserts_chain_fails_at_first_use
    {St Conf Stats : Type} (p : Option Nat) (t : Option ℚ)
    (physConf : St → Conf) (l : Nat) (rng : Rng) (st : St)
    (hpt : p.isSome = true ∨ t.isSome = true) (hl : 0 < l) :
    ResampledSampler.init none none = .error .assertionError ∧
    ResampledSampler.init p t = .ok (p, t) ∧
    ∃ c, chain ([SamplerCls.decorr l] : List (SamplerCls St Conf Stats)) =
        .ok c ∧
      c.sample physConf rng st = .error .notImplementedError := by
  refine ⟨rfl, ?_, _, rfl, mroSample_decorr_only physConf l hl rng st⟩
  rcases hpt with h | h <;> simp [ResampledSampler.init, h]

/-- C4 witness: `ResampledSampler(period=5)` constructs; `chain(DecorrSampler(3))`
returns normally and fails at first use. -/
theorem C4_witness :
    ResampledSampler.init none none = .error .assertionError ∧
    ResampledSampler.init (some 5) none = .ok (some 5, none) ∧
    ∃ c, chain ([SamplerCls.decorr 3] : List (SamplerCls Unit Unit Unit)) =
        .ok c ∧
      c.sample (fun _ => ()) (Rng.seed 1) () = .error .notImplementedError :=
  C4_resampled_asserts_chain_fails_at_first_use (some 5) none (fun _ => ()) 3
    (Rng.seed 1) () (Or.inl rfl) (by decide)

/-- C6: one external `sample` call on the sampler built by
`chain(DecorrSampler(length), terminal)` produces exactly the state obtained
by iterating the terminal mover's `sample` `length` times over the split RNG
streams, and returns only the final configuration (the one belonging to the
final state) and the final internal step's stats. -/
theorem C6_decorr_chain_iterates_terminal {St Conf Stats : Type}
    (f : Rng → St → St × Conf × Stats) (physConf : St → Conf)
    (l : Nat) (rng : Rng) (st : St)
    (hconf : ∀ r s, (f r s).2.1 = physConf (f r s).1)
    (hl : 0 < l) :
    ∃ c, chain [SamplerCls.decorr l, SamplerCls.terminal f] = .ok c ∧
      ∃ stats,
        c.sample physConf rng st =
          .ok (runMover f st (rng.split l),
            physConf (runMover f st (rng.split l)), stats) ∧
        (runMoverStats f st (rng.split l)).getLast? = some stats ∧
        (runMoverConfs f st (rng.split l)).getLast? =
          some (physConf (runMover f st (rng.split l))) := by
  refine ⟨_, rfl, ?_⟩
  obtain ⟨m, rfl⟩ : ∃ m, l = m + 1 := ⟨l - 1, by omega⟩
  have hsplitne : rng.split (m + 1) ≠ [] := by
    rw [Rng.split, List.range_succ_eq_map]
    simp
  have hne : runMoverStats f st (rng.split (m + 1)) ≠ [] := by
    rw [Rng.split, List.range_succ_eq_map]
    simp [runMoverStats]
  cases hgl : (runMoverStats f st (rng.split (m + 1))).getLast? with
  | none => exact absurd (List.getLast?_eq_none_iff.mp hgl) hne
  | some stats =>
    refine ⟨stats, ?_, rfl,
      runMoverConfs_getLast f physConf hconf (rng.split (m + 1)) st hsplitne⟩
    show decorrBody (mroSample physConf [SamplerCls.terminal f]) physConf
        (m + 1) rng st = _
    rw [decorrBody, scanE_terminal f physConf (rng.split (m + 1)) st]
    show (match (runMoverStats f st (rng.split (m + 1))).getLast? with
      | some stats => Except.ok (runMover f st (rng.split (m + 1)),
          physConf (runMover f st (rng.split (m + 1))), stats)
      | none => Except.error SamplerErr.indexError) = _
    rw [hgl]

/-- C6 witness: chaining `DecorrSampler(2)` over a concrete mover on `Nat`
advances the state by exactly two internal steps. -/
theorem C6_witness :
    ∃ c, chain [SamplerCls.decorr 2,
        SamplerCls.terminal (fun (_ : Rng) (s : Nat) => (s + 1, s + 1, s + 1))] =
        .ok c ∧
      ∃ stats,
        c.sample id (Rng.seed 0) 0 =
          .ok (runMover (fun _ s => (s + 1, s + 1, s + 1)) 0 ((Rng.seed 0).split 2),
            id (runMover (fun _ s => (s + 1, s + 1, s + 1)) 0 ((Rng.seed 0).split 2)),
            stats) ∧
        (runMoverStats (fun _ s => (s + 1, s + 1, s + 1)) 0
            ((Rng.seed 0).split 2)).getLast? = some stats ∧
        (runMoverConfs (fun _ s => (s + 1, s + 1, s + 1)) 0
            ((Rng.seed 0).split 2)).getLast? =
          some (id (runMover (fun _ s => (s + 1, s + 1, s + 1)) 0
            ((Rng.seed 0).split 2))) :=
  C6_decorr_chain_iterates_terminal (fun _ s => (s + 1, s + 1, s + 1)) id 2
    (Rng.seed 0) 0 (fun _ _ => rfl) (by decide)

/-! ## C5 -/

/-- C5: when the resampling trigger fires in `ResampledSampler.sample` (here
through the period branch), the returned state is exactly
`resample_walkers(rng_re, state)`; and for every walker state, the state
immediately after resampling has `log_weight` exactly zero for all walkers,
the step counter reset to zero, every `WALKER_STATE` field replaced by its
value at the drawn index, and effective sample size
`ESS = (Σw)²/Σw²` equal to the batch size. -/
theorem C5_resample_event_resets {n : Nat} {Pos Psi Conf Stats : Type}
    (treshold : Option ℝ)
    (superSample : Rng → RWState n Pos Psi → RWState n Pos Psi × Conf × Stats)
    (multinomial : Rng → (Fin n → ℝ) → (Fin n → Fin n))
    (physConf : (Fin n → Pos) → Conf)
    (rng : Rng) (state : RWState n Pos Psi) (p : Nat)
    (htrig : p ≤ (superSample (rng.child 1) state).1.step + 1) :
    (ResampledSampler.sampleStep (some p) treshold superSample multinomial
        physConf rng state).1 =
      ResampledSampler.resample_walkers multinomial (rng.child 0)
        { (superSample (rng.child 1) state).1 with
            step := (superSample (rng.child 1) state).1.step + 1 } ∧
    (∀ (rng_re : Rng) (st : RWState n Pos Psi),
      (∀ i, (ResampledSampler.resample_walkers multinomial rng_re st).log_weight i
          = 0) ∧
      (ResampledSampler.resample_walkers multinomial rng_re st).step = 0 ∧
      (∀ i,
        (ResampledSampler.resample_walkers multinomial rng_re st).r i =
          st.r (multinomial rng_re (fun j => Real.exp (st.log_weight j)) i) ∧
        (ResampledSampler.resample_walkers multinomial rng_re st).psi i =
          st.psi (multinomial rng_re (fun j => Real.exp (st.log_weight j)) i) ∧
        (ResampledSampler.resample_walkers multinomial rng_re st).age i =
          st.age (multinomial rng_re (fun j => Real.exp (st.log_weight j)) i)) ∧
      effectiveSampleSize
        (ResampledSampler.resample_walkers multinomial rng_re st).log_weight = n) := by
  constructor
  · have hc : resampleTrigger n (some p) treshold
        ((superSample (rng.child 1) state).1.step + 1)
        ((∑ i, Real.exp ((superSample (rng.child 1) state).1.log_weight i)) ^ 2 /
          ∑ i, Real.exp ((superSample (rng.child 1) state).1.log_weight i) ^ 2) :=
      Or.inl htrig
    simp only [ResampledSampler.sampleStep]
    rw [if_pos hc]
  · intro rng_re st
    refine ⟨fun i => rfl, rfl, fun i => ⟨rfl, rfl, rfl⟩, ?_⟩
    show effectiveSampleSize (fun _ : Fin n => (0 : ℝ)) = n
    unfold effectiveSampleSize
    simp only [Real.exp_zero, one_pow, Finset.sum_const, Finset.card_univ,
      Fintype.card_fin, nsmul_eq_mul, mul_one]
    rcases Nat.eq_zero_or_pos n with h | h
    · subst h
      simp
    · rw [sq, mul_div_assoc, div_self (Nat.cast_ne_zero.mpr (by omega)), mul_one]

/-- C5 witness: a two-walker state with `period=1` resamples on the first
step and satisfies all the reset properties. -/
theorem C5_witness :
    (ResampledSampler.sampleStep
        (some 1) none
        (fun _ s => (s, (), ()) : Rng → RWState 2 Unit Unit →
          RWState 2 Unit Unit × Unit × Unit)
        (fun _ _ => id) (fun _ => ())
        (Rng.seed 0) ⟨fun _ => (), fun _ => (), fun _ => 0, 0, 0, fun _ => 0⟩).1 =
      ResampledSampler.resample_walkers (fun _ _ => id) ((Rng.seed 0).child 0)
        { ((fun (_ : Rng) (s : RWState 2 Unit Unit) => (s, (), ()))
              ((Rng.seed 0).child 1)
              ⟨fun _ => (), fun _ => (), fun _ => 0, 0, 0, fun _ => 0⟩).1 with
            step := ((fun (_ : Rng) (s : RWState 2 Unit Unit) => (s, (), ()))
              ((Rng.seed 0).child 1)
              ⟨fun _ => (), fun _ => (), fun _ => 0, 0, 0, fun _ => 0⟩).1.step + 1 } ∧
    (∀ (rng_re : Rng) (st : RWState 2 Unit Unit),
      (∀ i, (ResampledSampler.resample_walkers (fun _ _ => id) rng_re st).log_weight i
          = 0) ∧
      (ResampledSampler.resample_walkers (fun _ _ => id) rng_re st).step = 0 ∧
      (∀ i,
        (ResampledSampler.resample_walkers (fun _ _ => id) rng_re st).r i =
          st.r ((fun (_ : Rng) (_ : Fin 2 → ℝ) => id) rng_re
            (fun j => Real.exp (st.log_weight j)) i) ∧
        (ResampledSampler.resample_walkers (fun _ _ => id) rng_re st).psi i =
          st.psi ((fun (_ : Rng) (_ : Fin 2 → ℝ) => id) rng_re
            (fun j => Real.exp (st.log_weight j)) i) ∧
        (ResampledSampler.resample_walkers (fun _ _ => id) rng_re st).age i =
          st.age ((fun (_ : Rng) (_ : Fin 2 → ℝ) => id) rng_re
            (fun j => Real.exp (st.log_weight j)) i)) ∧
      effectiveSampleSize
        (ResampledSampler.resample_walkers (fun _ _ => id) rng_re st).log_weight = 2) :=
  C5_resample_event_resets none (fun _ s => (s, (), ())) (fun _ _ => id)
    (fun _ => ()) (Rng.seed 0) ⟨fun _ => (), fun _ => (), fun _ => 0, 0, 0, fun _ => 0⟩
    1 (Nat.le_refl 1)

/-! ## Force-cleaning lemmas -/

theorem normSq3_nonneg (v : ℝ × ℝ × ℝ) : 0 ≤ normSq3 v := by
  unfold normSq3
  positivity

theorem norm3_nonneg (v : ℝ × ℝ × ℝ) : 0 ≤ norm3 v :=
  Real.sqrt_nonneg _

theorem norm3_smul3 (c : ℝ) (v : ℝ × ℝ × ℝ) :
    norm3 (smul3 c v) = |c| * norm3 v := by
  unfold norm3 smul3 normSq3
  rw [show (c * v.1) ^ 2 + (c * v.2.1) ^ 2 + (c * v.2.2) ^ 2 =
      c ^ 2 * (v.1 ^ 2 + v.2.1 ^ 2 + v.2.2 ^ 2) by ring,
    Real.sqrt_mul (sq_nonneg c), Real.sqrt_sq_eq_abs]

theorem abs_dot3_le (u v : ℝ × ℝ × ℝ) : |dot3 u v| ≤ norm3 u * norm3 v := by
  have h : (dot3 u v) ^ 2 ≤ normSq3 u * normSq3 v := by
    unfold dot3 normSq3
    nlinarith [sq_nonneg (u.1 * v.2.1 - u.2.1 * v.1),
      sq_nonneg (u.1 * v.2.2 - u.2.2 * v.1),
      sq_nonneg (u.2.1 * v.2.2 - u.2.2 * v.2.1)]
  have habs := Real.abs_le_sqrt h
  rwa [Real.sqrt_mul (normSq3_nonneg u)] at habs

theorem norm3_unit_le_one (v : ℝ × ℝ × ℝ) :
    norm3 (smul3 (norm3 v)⁻¹ v) ≤ 1 := by
  rw [norm3_smul3]
  rcases eq_or_ne (norm3 v) 0 with h | h
  · simp [h]
  · rw [abs_inv, abs_of_nonneg (norm3_nonneg v), inv_mul_cancel₀ h]

theorem norm3_clipped_unit_le_one (v : ℝ × ℝ × ℝ) (ε : ℝ) (hε : 0 < ε) :
    norm3 (smul3 (max (norm3 v) ε)⁻¹ v) ≤ 1 := by
  have hM : 0 < max (norm3 v) ε := lt_sup_of_lt_right hε
  rw [norm3_smul3, abs_inv, abs_of_pos hM, ← div_eq_inv_mul]
  exact div_le_one_of_le₀ (le_max_left _ _) hM.le

theorem crossover_parameter_nonneg (z : ℝ × ℝ × ℝ) (z2 : ℝ) (f : ℝ × ℝ × ℝ)
    (charge ε : ℝ) (hz2 : 0 ≤ z2) (hε : 0 < ε) :
    0 ≤ crossover_parameter z z2 f charge ε := by
  simp only [crossover_parameter]
  have hfu := norm3_clipped_unit_le_one f ε hε
  have hzu := norm3_unit_le_one z
  have habs : |dot3 (smul3 (max (norm3 f) ε)⁻¹ f) (smul3 (norm3 z)⁻¹ z)| ≤ 1 :=
    (abs_dot3_le _ _).trans
      (mul_le_one₀ hfu (norm3_nonneg _) hzu)
  have hdot : -1 ≤ dot3 (smul3 (max (norm3 f) ε)⁻¹ f) (smul3 (norm3 z)⁻¹ z) := by
    have := neg_abs_le (dot3 (smul3 (max (norm3 f) ε)⁻¹ f) (smul3 (norm3 z)⁻¹ z))
    linarith
  have hZ : 0 ≤ charge ^ 2 * z2 := by positivity
  have hfrac : 0 ≤ charge ^ 2 * z2 / (10 * (4 + charge ^ 2 * z2)) := by positivity
  linarith

/-! ## C7 -/

/-- C7: for every force vector, configuration, and `tau > 0`, the force
returned by `clean_force` has magnitude at most the raw force's (the bounded
rescaling never amplifies), and the drift displacement `tau * |returned
force|` never exceeds the walker's distance `sqrt z2` to its nearest nucleus,
the epsilon floor `max |F| ε` keeping the clipping factor well defined for
zero-norm forces. -/
theorem C7_clean_force_drift_bounded (force z : ℝ × ℝ × ℝ) (z2 charge tau ε : ℝ)
    (htau : 0 < tau) (hz2 : 0 ≤ z2) (hε : 0 < ε) :
    norm3 (clean_force force z z2 charge tau ε) ≤ norm3 force ∧
    tau * norm3 (clean_force force z z2 charge tau ε) ≤ Real.sqrt z2 := by
  have ha0 : 0 ≤ crossover_parameter z z2 force charge ε :=
    crossover_parameter_nonneg z z2 force charge ε hz2 hε
  set a := crossover_parameter z z2 force charge ε with ha
  set av2tau := a * normSq3 force * tau with hav2
  have hav : 0 ≤ av2tau :=
    mul_nonneg (mul_nonneg ha0 (normSq3_nonneg force)) htau.le
  set factor := 2 / (Real.sqrt (1 + 2 * av2tau) + 1) with hfactor
  have hsq1 : 1 ≤ Real.sqrt (1 + 2 * av2tau) := by
    have h4 : Real.sqrt 1 ≤ Real.sqrt (1 + 2 * av2tau) :=
      Real.sqrt_le_sqrt (by linarith)
    rwa [Real.sqrt_one] at h4
  have hfac0 : 0 ≤ factor := by
    apply div_nonneg (by norm_num)
    linarith
  have hfac1 : factor ≤ 1 := by
    rw [hfactor, div_le_one (by linarith)]
    linarith
  set F1 := smul3 factor force with hF1
  have hn1 : norm3 F1 = factor * norm3 force := by
    rw [hF1, norm3_smul3, abs_of_nonneg hfac0]
  set M := max (norm3 F1) ε with hM'
  have hM : 0 < M := lt_sup_of_lt_right hε
  set q := Real.sqrt z2 / (tau * M) with hq
  have hq0 : 0 ≤ q := div_nonneg (Real.sqrt_nonneg _) (by positivity)
  set nf := min 1 q with hnf
  have hnf0 : 0 ≤ nf := le_min zero_le_one hq0
  have hnf1 : nf ≤ 1 := min_le_left _ _
  have hdef : clean_force force z z2 charge tau ε = smul3 nf F1 := rfl
  rw [hdef, norm3_smul3, abs_of_nonneg hnf0]
  constructor
  · calc nf * norm3 F1 ≤ 1 * (1 * norm3 force) := by
          rw [hn1]
          exact mul_le_mul hnf1
            (mul_le_mul hfac1 le_rfl (norm3_nonneg _) zero_le_one)
            (mul_nonneg hfac0 (norm3_nonneg _)) zero_le_one
    _ = norm3 force := by ring
  · have hn1M : norm3 F1 ≤ M := le_max_left _ _
    have h1 : nf ≤ q := min_le_right _ _
    have htau' : tau ≠ 0 := ne_of_gt htau
    have hMne : M ≠ 0 := ne_of_gt hM
    calc tau * (nf * norm3 F1) ≤ tau * (q * norm3 F1) :=
          mul_le_mul_of_nonneg_left
            (mul_le_mul_of_nonneg_right h1 (norm3_nonneg _)) htau.le
    _ = norm3 F1 / M * Real.sqrt z2 := by
          rw [hq]
          field_simp
          ring
    _ ≤ 1 * Real.sqrt z2 :=
          mul_le_mul_of_nonneg_right (div_le_one_of_le₀ hn1M hM.le)
            (Real.sqrt_nonneg _)
    _ = Real.sqrt z2 := one_mul _

/-- C7 witness: a zero force at a walker sitting on its nearest nucleus, with
`tau = 1` and `ε = 1`. -/
theorem C7_witness :
    norm3 (clean_force (0, 0, 0) (0, 0, 0) 0 0 1 1) ≤ norm3 (0, 0, 0) ∧
    1 * norm3 (clean_force (0, 0, 0) (0, 0, 0) 0 0 1 1) ≤ Real.sqrt 0 :=
  C7_clean_force_drift_bounded (0, 0, 0) (0, 0, 0) 0 0 1 1 (by norm_num)
    le_rfl (by norm_num)

/-! ## MoleculeIdxSampler lemmas -/

theorem sampleIdx_no_wrap (n bs state : Nat) (hbs : 0 < bs)
    (h : state + bs ≤ n) :
    MoleculeIdxSampler.sampleIdx n bs state =
      (List.range' state bs, (state + bs) % n) := by
  have hmin : min (state + bs) n = state + bs := min_eq_left h
  have hmap : (List.range' state bs).map (permGet n) = List.range' state bs := by
    conv_rhs => rw [← List.map_id (List.range' state bs)]
    refine List.map_congr_left ?_
    intro x hx
    have hx' := List.mem_range'_1.mp hx
    unfold permGet
    simp only [id]
    omega
  simp only [MoleculeIdxSampler.sampleIdx, hmin, Nat.add_sub_cancel_left,
    List.length_range', lt_irrefl, if_false, hmap]

theorem run_cycle (n bs : Nat) (hbs : 0 < bs) (hdvd : bs ∣ n) :
    ∀ (j i : Nat), i + j = n / bs →
      (MoleculeIdxSampler.run n bs (i * bs) j).flatten =
        List.range' (i * bs) (n - i * bs)
  | 0, i, h => by
    obtain ⟨c, rfl⟩ := hdvd
    rw [Nat.mul_div_cancel_left c hbs] at h
    have hin : i * bs = bs * c := by
      rw [Nat.add_zero] at h
      subst h
      ring
    simp [MoleculeIdxSampler.run, hin]
  | j + 1, i, h => by
    have hin : i * bs + bs ≤ n := by
      obtain ⟨c, rfl⟩ := hdvd
      rw [Nat.mul_div_cancel_left c hbs] at h
      calc i * bs + bs = (i + 1) * bs := by ring
      _ ≤ c * bs := Nat.mul_le_mul_right bs (by omega)
      _ = bs * c := Nat.mul_comm c bs
    rw [show MoleculeIdxSampler.run n bs (i * bs) (j + 1) =
        (MoleculeIdxSampler.sampleIdx n bs (i * bs)).1 ::
          MoleculeIdxSampler.run n bs
            (MoleculeIdxSampler.sampleIdx n bs (i * bs)).2 j from rfl,
      sampleIdx_no_wrap n bs (i * bs) hbs hin]
    cases j with
    | zero =>
      have hlast : n - i * bs = bs := by
        obtain ⟨c, rfl⟩ := hdvd
        rw [Nat.mul_div_cancel_left c hbs] at h
        have : i + 1 = c := h
        subst this
        have : i * bs + bs = bs * (i + 1) := by ring
        omega
      simp [MoleculeIdxSampler.run, hlast]
    | succ j' =>
      have hlt : i * bs + bs < n := by
        obtain ⟨c, rfl⟩ := hdvd
        rw [Nat.mul_div_cancel_left c hbs] at h
        have h2 : i + 2 ≤ c := by omega
        calc i * bs + bs = (i + 1) * bs := by ring
        _ < (i + 2) * bs := by
              exact (Nat.mul_lt_mul_right hbs).mpr (by omega)
        _ ≤ c * bs := Nat.mul_le_mul_right bs h2
        _ = bs * c := Nat.mul_comm c bs
      have ihcall := run_cycle n bs hbs hdvd (j' + 1) (i + 1) (by omega)
      rw [List.flatten_cons, Nat.mod_eq_of_lt hlt,
        show i * bs + bs = (i + 1) * bs by ring, ihcall]
      have happ := List.range'_append (i * bs) bs (n - (i + 1) * bs) 1
      rw [Nat.one_mul] at happ
      rw [show i * bs + bs = (i + 1) * bs by ring] at happ
      rw [happ]
      congr 1
      have h3 : bs ≤ n - i * bs := by omega
      have h4 : (i + 1) * bs = i * bs + bs := by ring
      omega

/-! ## C8 -/

/-- C8 counterexample: with `n_mols = 5`, `batch_size = 2` and shuffle
disabled, the first `ceil(5/2) = 3` calls emit `[0,1], [2,3], [4,0]`: index 0
is visited twice in the cycle, not exactly once. -/
theorem C8_counterexample :
    (MoleculeIdxSampler.run 5 2 0 3).flatten = [0, 1, 2, 3, 4, 0] ∧
    (MoleculeIdxSampler.run 5 2 0 3).flatten.count 0 = 2 := by
  decide

/-- C8 (amended): with shuffle disabled, every `sample` call returns exactly
`batch_size` indices; and when `batch_size` divides `n_mols`, a full cycle of
`n_mols / batch_size` consecutive calls from a fresh sampler visits every
geometry index in `0..n_mols-1` exactly once.  (When `batch_size` does not
divide `n_mols`, the wrap-around refills from the start of the next
permutation, so `ceil(n_mols/batch_size) * batch_size > n_mols` indices are
emitted per cycle and some index repeats.) -/
theorem C8_batches_exact_and_divisible_cycle_covers (n bs state : Nat)
    (hbs : 0 < bs) (hst : state < n) :
    (MoleculeIdxSampler.sampleIdx n bs state).1.length = bs ∧
    (bs ∣ n →
      (MoleculeIdxSampler.run n bs 0 (n / bs)).flatten = List.range n) := by
  constructor
  · by_cases hw : min (state + bs) n - state < bs
    · simp only [MoleculeIdxSampler.sampleIdx, List.length_range', if_pos hw,
        List.length_append, List.length_map, List.length_range]
      omega
    · simp only [MoleculeIdxSampler.sampleIdx, List.length_range', if_neg hw,
        List.length_map]
      omega
  · intro hdvd
    have := run_cycle n bs hbs hdvd (n / bs) 0 (by omega)
    rw [Nat.zero_mul] at this
    rw [this, Nat.sub_zero, List.range_eq_range']

/-- C8 witness: `n_mols = 4`, `batch_size = 2`: both calls return 2 indices
and the 2-call cycle is exactly `[0,1,2,3]`. -/
theorem C8_witness :
    (MoleculeIdxSampler.sampleIdx 4 2 1).1.length = 2 ∧
    (2 ∣ 4 →
      (MoleculeIdxSampler.run 4 2 0 (4 / 2)).flatten = List.range 4) :=
  C8_batches_exact_and_divisible_cycle_covers 4 2 1 (by decide) (by decide)

end DeepQMC
